import Mathlib

/-!
Verification of the Instagram profile-ingestion pipeline
(`scraper.py` + `db_handler.py`) against its design specification.

The Python code is shallowly embedded: dictionaries become structures,
the PostgreSQL `profiles` table becomes an association list of rows,
timestamps become natural numbers, and each fallible operation returns
the same observable results the Python function produces (return value,
mutated caller data, resulting table state, success flag).
-/

set_option autoImplicit false

namespace IGScraper

/-- Reply of the Remote Profile Source collaborator for one username
(spec section 6): either the raw metric fields, or one of the failure
signals that `instaloader` raises as exceptions in `scraper.py`
(`ProfileNotExistsException`, `PrivateProfileNotFollowedException`,
`LoginRequiredException`, or any other exception with a message). -/
inductive ProviderResp where
  | fields (followers following posts_count : Int)
  | notExists
  | privateNotFollowed
  | loginRequired
  | otherError (msg : String)
  deriving DecidableEq, Repr

/-- A Python profile dictionary as built by `get_profile_data`
(scraper.py lines 57-63) and consumed by the persistence layer.
`engagement = none` models the dictionary lacking the `engagement` key;
`scraped_at = none` models a dictionary without that key (the
db_handler test dictionaries have no `scraped_at`). -/
structure PDict where
  username : String
  followers : Int
  following : Int
  posts_count : Int
  scraped_at : Option Nat := none
  engagement : Option Int := none
  deriving DecidableEq, Repr

/-- Embeds `InstagramScraper.get_profile_data` (scraper.py lines 29-76).
Input: the current time and the provider's reply for `username`.
Output: the Python return value (`Some` dict on success, `None` on every
failure) paired with the message printed by the branch that ran, which is
the only place the four failure classes remain distinguishable. -/
def get_profile_data (now : Nat) (username : String) (resp : ProviderResp) :
    Option PDict × String :=
  match resp with
  | .fields fo fg pc =>
      (some { username := username, followers := fo, following := fg,
              posts_count := pc, scraped_at := some now },
       "Scraping profile: @" ++ username)
  | .notExists => (none, "Profile @" ++ username ++ " does not exist")
  | .privateNotFollowed => (none, "Profile @" ++ username ++ " is private")
  | .loginRequired => (none, "Login required to access @" ++ username)
  | .otherError msg => (none, "Error scraping @" ++ username ++ ": " ++ msg)

/-- The closed outcome set named by the spec (section 4.1):
`Success(ProfileSnapshot) | NotFound | PrivateAccount | AuthRequired |
TransientError(detail)`. -/
inductive FetchOutcome where
  | success (snap : PDict)
  | notFound
  | privateAccount
  | authRequired
  | transientError (detail : String)
  deriving DecidableEq, Repr

/-- Which handler branch of `get_profile_data` runs for each provider
signal (scraper.py lines 39-76), expressed in the spec's outcome
vocabulary: the success path, the three specific `except` clauses, and
the catch-all `except Exception` clause that keeps the original message. -/
def branchOutcome (now : Nat) (username : String) (resp : ProviderResp) :
    FetchOutcome :=
  match resp with
  | .fields fo fg pc =>
      .success { username := username, followers := fo, following := fg,
                 posts_count := pc, scraped_at := some now }
  | .notExists => .notFound
  | .privateNotFollowed => .privateAccount
  | .loginRequired => .authRequired
  | .otherError msg => .transientError msg

/-- One step of the fetch loop trace: a fetch of a username (with its
success flag) or a `time.sleep` of the given number of seconds. -/
inductive FetchEv where
  | fetch (username : String) (ok : Bool)
  | sleep (secs : Nat)
  deriving DecidableEq, Repr

/-- The loop body of `scrape_multiple_profiles` (scraper.py lines
97-112), carrying the 1-based index `idx` and the fixed `total` exactly
as the Python `enumerate(usernames, 1)` loop does: after each fetch,
`time.sleep(3)` runs iff `idx < total`. Returns the accumulated result
list and the event trace. -/
def scrapeFrom (now : Nat) (env : String → ProviderResp) (total : Nat) :
    Nat → List String → List PDict × List FetchEv
  | _, [] => ([], [])
  | idx, u :: rest =>
      let data := (get_profile_data now u (env u)).1
      let here : List FetchEv :=
        FetchEv.fetch u data.isSome ::
          (if idx < total then [FetchEv.sleep 3] else [])
      let tail := scrapeFrom now env total (idx + 1) rest
      (match data with
       | some d => d :: tail.1
       | none => tail.1,
       here ++ tail.2)

/-- Embeds `InstagramScraper.scrape_multiple_profiles` (scraper.py lines
80-118): iterates usernames in order, appends each successful dict, and
finally prints "Successfully scraped len(results)/total profiles".
Returns (results, trace, reported successes, reported total). -/
def scrape_multiple_profiles (now : Nat) (env : String → ProviderResp)
    (usernames : List String) : List PDict × List FetchEv × Nat × Nat :=
  let r := scrapeFrom now env usernames.length 1 usernames
  (r.1, r.2, r.1.length, usernames.length)

/-- A row of the `profiles` table: the columns written by the upsert
statements in db_handler.py, minus the key column `username` which the
store keeps separately. -/
structure Row where
  followers : Int
  following : Int
  posts_count : Int
  engagement : Int
  last_updated : Nat
  deriving DecidableEq, Repr

/-- The `profiles` table: at most one row per username is maintained by
the upsert statements' `ON CONFLICT (username)` clause. -/
abbrev Store := List (String × Row)

/-- `SELECT ... WHERE username = ...`: first row whose key matches. -/
def lookup (u : String) : Store → Option Row
  | [] => none
  | e :: rest => if e.1 = u then some e.2 else lookup u rest

/-- The row the upsert statements write for a profile dictionary at time
`t`: the five VALUES columns with `last_updated = CURRENT_TIMESTAMP`; a
still-missing `engagement` key would be written as its default 0. -/
def rowOf (t : Nat) (p : PDict) : Row :=
  { followers := p.followers, following := p.following,
    posts_count := p.posts_count, engagement := p.engagement.getD 0,
    last_updated := t }

/-- Effect of one `INSERT ... ON CONFLICT (username) DO UPDATE` row on
the table (db_handler.py lines 59-70 and 99-109): if a row with the same
username exists it is overwritten in place (username itself unchanged),
otherwise the new row is appended. -/
def sqlUpsert (t : Nat) (p : PDict) : Store → Store
  | [] => [(p.username, rowOf t p)]
  | e :: rest =>
      if e.1 = p.username then (e.1, rowOf t p) :: rest
      else e :: sqlUpsert t p rest

/-- Modelled from the spec: the `profiles` table schema is not in the
repository sources; the spec's schema contract (section 6) declares
`followers`, `following`, `posts_count` as integers that are never
negative, so a row violates a store constraint exactly when one of them
is negative. -/
def rowValid (p : PDict) : Prop :=
  0 ≤ p.followers ∧ 0 ≤ p.following ∧ 0 ≤ p.posts_count

instance (p : PDict) : Decidable (rowValid p) := by
  unfold rowValid; infer_instance

/-- `if 'engagement' not in profile: profile['engagement'] = 0` — the
in-place normalization both upsert functions perform on the caller's
dictionary (db_handler.py lines 56-57 and 112-114). -/
def fillEngagement (p : PDict) : PDict :=
  match p.engagement with
  | none => { p with engagement := some 0 }
  | some _ => p

/-- Embeds `DatabaseHandler.upsert_profile` (db_handler.py lines 47-89).
Returns the caller's dictionary as it stands after the call (the
normalization mutates it in place before the statement runs), the
resulting table, and the Python return value: `True` after commit,
`False` after the exception handler rolled the transaction back. -/
def upsert_profile (t : Nat) (p : PDict) (s : Store) :
    PDict × Store × Bool :=
  let p' := fillEngagement p
  if rowValid p' then (p', sqlUpsert t p' s, true) else (p', s, false)

/-- Row-by-row effect of the VALUES list of the batch statement on the
pending table state: each row is checked against the store constraints
and applied; a constraint violation aborts the statement with an error
and the pending writes of the earlier rows are never committed. -/
def execValsLoop (t : Nat) : List PDict → Store → Except String Store
  | [], s => .ok s
  | p :: rest, s =>
      if rowValid p then execValsLoop t rest (sqlUpsert t p s)
      else .error ("constraint violation: @" ++ p.username)

/-- Execution of the single multi-row `INSERT ... VALUES %s ON CONFLICT
(username) DO UPDATE` statement that `execute_values` sends (db_handler.py
lines 99-127), inside the open transaction. PostgreSQL refuses a command
whose VALUES list proposes the same arbiter key twice — the documented
cardinality violation "ON CONFLICT DO UPDATE command cannot affect row a
second time" — so a batch with a duplicate username errors as a whole;
otherwise the rows are checked and applied. -/
def execRows (t : Nat) (rows : List PDict) (s : Store) :
    Except String Store :=
  if (rows.map PDict.username).Nodup then execValsLoop t rows s
  else
    .error "ON CONFLICT DO UPDATE command cannot affect row a second time"

/-- Embeds `DatabaseHandler.upsert_profiles_batch` (db_handler.py lines
91-136). Every dictionary in the caller's list is normalized in place,
then the whole batch runs as one statement in one transaction: on
success it is committed, on any failure (constraint violation or a
duplicate username within the statement) `connection.rollback()`
restores the pre-call table and the function returns `False` instead of
raising. -/
def upsert_profiles_batch (t : Nat) (ps : List PDict) (s : Store) :
    List PDict × Store × Bool :=
  let ps' := ps.map fillEngagement
  match execRows t ps' s with
  | .ok s' => (ps', s', true)
  | .error _ => (ps', s, false)

/-- Insertion step for `ORDER BY followers DESC`: keeps already-placed
rows with at least as many followers ahead of the new row. -/
def insertByFollowers (e : String × Row) :
    List (String × Row) → List (String × Row)
  | [] => [e]
  | f :: rest =>
      if e.2.followers ≤ f.2.followers then f :: insertByFollowers e rest
      else e :: f :: rest

/-- `SELECT * FROM profiles ORDER BY followers DESC`. -/
def sortByFollowersDesc (s : Store) : List (String × Row) :=
  List.foldr insertByFollowers [] s

/-- Embeds `DatabaseHandler.get_all_profiles` (db_handler.py lines
138-152). `err` is whether the query raises; the handler catches the
exception and returns the empty list. The second component is the table
after the call. -/
def get_all_profiles (err : Bool) (s : Store) :
    List (String × Row) × Store :=
  if err then ([], s) else (sortByFollowersDesc s, s)

/-- Embeds `DatabaseHandler.get_profile_by_username` (db_handler.py
lines 154-168). `err` is whether the query raises; the handler catches
the exception and returns `None`, the same value an absent username
yields. The second component is the table after the call. -/
def get_profile_by_username (err : Bool) (s : Store) (u : String) :
    Option Row × Store :=
  if err then (none, s) else (lookup u s, s)

/-- Observable events of the `__main__` guard of scraper.py. -/
inductive MainEv where
  | connectOk
  | connectFail
  | batchSaved
  | batchFailed
  | disconnected
  deriving DecidableEq, Repr

/-- `profile['engagement'] = 0` — the unconditional assignment the
`__main__` guard performs on every result before the batch upsert
(scraper.py lines 200-201). -/
def setEngagementZero (p : PDict) : PDict :=
  { p with engagement := some 0 }

/-- Embeds the `__main__` guard of scraper.py (lines 185-220).
`results` is what `main()` returned, `connectSucceeds` is whether
`db.connect()` returns `True`, `s` is the table, and `interruptAt`
injects a `KeyboardInterrupt`: `some 0` before the database block (or
during `main()` itself), `some 1` after a successful connect but before
the batch commit, `some 2` after the batch but before `disconnect`;
`none` means no interrupt. `KeyboardInterrupt` is not a subclass of
`Exception`, so none of the handlers in db_handler.py catch it; control
jumps straight to the `except KeyboardInterrupt` clause, which calls
`sys.exit(1)`. Returns the event trace, the final table, and the
process exit code (`sys.exit(0 if results else 1)` on the non-interrupt
paths). -/
def mainGuard (t : Nat) (results : List PDict) (connectSucceeds : Bool)
    (s : Store) (interruptAt : Option Nat) : List MainEv × Store × Nat :=
  if interruptAt = some 0 then ([], s, 1)
  else if results.isEmpty then ([], s, 1)
  else if connectSucceeds then
    if interruptAt = some 1 then ([MainEv.connectOk], s, 1)
    else
      let step := upsert_profiles_batch t (results.map setEngagementZero) s
      let ev := if step.2.2 then MainEv.batchSaved else MainEv.batchFailed
      if interruptAt = some 2 then ([MainEv.connectOk, ev], step.2.1, 1)
      else ([MainEv.connectOk, ev, MainEv.disconnected], step.2.1, 0)
  else ([MainEv.connectFail], s, 0)

/-! Auxiliary definitions used to state and prove the properties. -/

/-- Sequential application of the batch rows to the table, the committed
effect of a successful `upsert_profiles_batch`. -/
def applyAll (t : Nat) (ps : List PDict) (s : Store) : Store :=
  List.foldl (fun st p => sqlUpsert t p st) s ps

/-- The last element of `ps` (in iteration order) whose username is `u`,
if any. -/
def lastOcc (u : String) : List PDict → Option PDict
  | [] => none
  | p :: rest =>
      match lastOcc u rest with
      | some q => some q
      | none => if p.username = u then some p else none

/-- Erase the server-set timestamp of a row, for comparing table states
"identical except `last_updated`". -/
def stripTime (r : Row) : Row :=
  { r with last_updated := 0 }

/-- Whether a fetch-loop event is a `time.sleep`. -/
def isSleepEv : FetchEv → Bool
  | .sleep _ => true
  | .fetch _ _ => false

/-- A well-formed profile dictionary with an `engagement` key. -/
def sampleA : PDict :=
  { username := "a", followers := 10, following := 2, posts_count := 3,
    engagement := some 1 }

/-- A profile dictionary lacking the `engagement` key. -/
def sampleNoEng : PDict :=
  { username := "noeng", followers := 4, following := 5, posts_count := 6 }

/-- A dictionary whose row violates the store's non-negativity
constraint. -/
def sampleBad : PDict :=
  { username := "bad", followers := -1, following := 0, posts_count := 0,
    engagement := some 0 }

/-- First of two batch entries sharing the username `"x"`. -/
def sampleX1 : PDict :=
  { username := "x", followers := 100, following := 1, posts_count := 1,
    engagement := some 1 }

/-- Second of two batch entries sharing the username `"x"`. -/
def sampleX2 : PDict :=
  { username := "x", followers := 200, following := 2, posts_count := 2,
    engagement := some 2 }

/-! Helper lemmas. -/

theorem fillEngagement_username (p : PDict) :
    (fillEngagement p).username = p.username := by
  rcases p with ⟨un, fo, fg, pc, sa, eng⟩
  cases eng <;> rfl

theorem fillEngagement_engagement (p : PDict) :
    (fillEngagement p).engagement = some (p.engagement.getD 0) := by
  rcases p with ⟨un, fo, fg, pc, sa, eng⟩
  cases eng <;> rfl

theorem rowOf_fillEngagement (t : Nat) (p : PDict) :
    rowOf t (fillEngagement p) = rowOf t p := by
  rcases p with ⟨un, fo, fg, pc, sa, eng⟩
  cases eng <;> rfl

theorem lookup_sqlUpsert (t : Nat) (p : PDict) (s : Store) (u : String) :
    lookup u (sqlUpsert t p s) =
      if p.username = u then some (rowOf t p) else lookup u s := by
  induction s with
  | nil => simp only [sqlUpsert, lookup]
  | cons e rest ih =>
      by_cases he : e.1 = p.username
      · simp only [sqlUpsert, he, if_pos rfl, lookup]
        by_cases hu : p.username = u
        · simp [hu]
        · have : ¬ e.1 = u := by rw [he]; exact hu
          simp [hu, this, lookup]
      · simp only [sqlUpsert, if_neg he, lookup, ih]
        by_cases hu : e.1 = u
        · have : ¬ p.username = u := by
            intro h; exact he (hu.trans h.symm)
          simp [hu, this]
        · simp [hu]

theorem execValsLoop_ok (t : Nat) (ps : List PDict) (s : Store)
    (h : ∀ p ∈ ps, rowValid p) :
    execValsLoop t ps s = .ok (applyAll t ps s) := by
  induction ps generalizing s with
  | nil => rfl
  | cons p rest ih =>
      have hp : rowValid p := h p (List.mem_cons_self p rest)
      simp only [execValsLoop, if_pos hp, applyAll, List.foldl_cons]
      exact ih (sqlUpsert t p s) (fun q hq => h q (List.mem_cons_of_mem p hq))

theorem execValsLoop_error (t : Nat) (ps : List PDict) (s : Store)
    (h : ∃ p ∈ ps, ¬ rowValid p) :
    ∃ e, execValsLoop t ps s = .error e := by
  induction ps generalizing s with
  | nil => obtain ⟨p, hp, _⟩ := h; exact absurd hp (List.not_mem_nil p)
  | cons p rest ih =>
      by_cases hp : rowValid p
      · simp only [execValsLoop, if_pos hp]
        obtain ⟨q, hq, hnv⟩ := h
        rcases List.mem_cons.mp hq with rfl | hq'
        · exact absurd hp hnv
        · exact ih (sqlUpsert t p s) ⟨q, hq', hnv⟩
      · exact ⟨"constraint violation: @" ++ p.username,
          by simp [execValsLoop, hp]⟩

theorem execRows_ok (t : Nat) (ps : List PDict) (s : Store)
    (hnd : (ps.map PDict.username).Nodup) (h : ∀ p ∈ ps, rowValid p) :
    execRows t ps s = .ok (applyAll t ps s) := by
  unfold execRows
  rw [if_pos hnd]
  exact execValsLoop_ok t ps s h

theorem execRows_error (t : Nat) (ps : List PDict) (s : Store)
    (h : (∃ p ∈ ps, ¬ rowValid p) ∨ ¬ (ps.map PDict.username).Nodup) :
    ∃ e, execRows t ps s = .error e := by
  by_cases hnd : (ps.map PDict.username).Nodup
  · rcases h with h | h
    · obtain ⟨e, he⟩ := execValsLoop_error t ps s h
      refine ⟨e, ?_⟩
      unfold execRows
      rw [if_pos hnd]
      exact he
    · exact absurd hnd h
  · refine ⟨"ON CONFLICT DO UPDATE command cannot affect row a second time",
      ?_⟩
    unfold execRows
    rw [if_neg hnd]

theorem lookup_applyAll (t : Nat) (ps : List PDict) (s : Store) (u : String) :
    lookup u (applyAll t ps s) =
      match lastOcc u ps with
      | some p => some (rowOf t p)
      | none => lookup u s := by
  induction ps generalizing s with
  | nil => rfl
  | cons p rest ih =>
      simp only [applyAll, List.foldl_cons] at *
      rw [ih (sqlUpsert t p s)]
      simp only [lastOcc]
      cases hrest : lastOcc u rest with
      | some q => rfl
      | none =>
          rw [lookup_sqlUpsert]
          by_cases hu : p.username = u <;> simp [hu]

theorem lastOcc_eq_none (u : String) (ps : List PDict)
    (h : ∀ p ∈ ps, p.username ≠ u) : lastOcc u ps = none := by
  induction ps with
  | nil => rfl
  | cons p rest ih =>
      simp only [lastOcc, ih (fun q hq => h q (List.mem_cons_of_mem p hq))]
      simp [h p (List.mem_cons_self p rest)]

theorem lastOcc_mem (u : String) (ps : List PDict) (v : PDict)
    (h : lastOcc u ps = some v) : v ∈ ps ∧ v.username = u := by
  induction ps with
  | nil => simp [lastOcc] at h
  | cons p rest ih =>
      cases hrest : lastOcc u rest with
      | some q =>
          simp only [lastOcc, hrest, Option.some.injEq] at h
          subst h
          obtain ⟨hm, he⟩ := ih hrest
          exact ⟨List.mem_cons_of_mem p hm, he⟩
      | none =>
          simp only [lastOcc, hrest] at h
          by_cases hp : p.username = u
          · rw [if_pos hp, Option.some.injEq] at h
            subst h
            exact ⟨List.mem_cons_self p rest, hp⟩
          · rw [if_neg hp] at h
            simp at h

theorem lastOcc_none_of (u : String) (ps : List PDict) :
    lastOcc u ps = none → ∀ p ∈ ps, p.username ≠ u := by
  induction ps with
  | nil => intro _ p hp; exact absurd hp (List.not_mem_nil p)
  | cons q rest ih =>
      intro h p hp
      cases hrest : lastOcc u rest with
      | some w => simp [lastOcc, hrest] at h
      | none =>
          simp only [lastOcc, hrest] at h
          rcases List.mem_cons.mp hp with rfl | hp'
          · intro he
            rw [if_pos he] at h
            simp at h
          · exact ih hrest p hp'

theorem lastOcc_none_iff (u : String) (ps : List PDict) :
    lastOcc u ps = none ↔ ∀ p ∈ ps, p.username ≠ u :=
  ⟨lastOcc_none_of u ps, lastOcc_eq_none u ps⟩

theorem lastOcc_of_mem_nodup (u : String) (ps : List PDict) (v : PDict)
    (hm : v ∈ ps) (hu : v.username = u)
    (hnd : (ps.map PDict.username).Nodup) : lastOcc u ps = some v := by
  induction ps with
  | nil => exact absurd hm (List.not_mem_nil v)
  | cons p rest ih =>
      simp only [List.map_cons, List.nodup_cons] at hnd
      obtain ⟨hpn, hndr⟩ := hnd
      rcases List.mem_cons.mp hm with rfl | hm'
      · have hnone : lastOcc u rest = none := by
          apply lastOcc_eq_none
          intro q hq he
          exact hpn (by
            rw [hu, ← he]
            exact List.mem_map_of_mem PDict.username hq)
        simp only [lastOcc, hnone, if_pos hu]
      · have := ih hm' hndr
        simp only [lastOcc, this]

theorem lastOcc_perm (u : String) (ps qs : List PDict) (h : ps.Perm qs)
    (hnd : (ps.map PDict.username).Nodup) : lastOcc u ps = lastOcc u qs := by
  have hndq : (qs.map PDict.username).Nodup :=
    ((h.map PDict.username).nodup_iff).mp hnd
  cases hp : lastOcc u ps with
  | some v =>
      obtain ⟨hm, he⟩ := lastOcc_mem u ps v hp
      exact (lastOcc_of_mem_nodup u qs v (h.mem_iff.mp hm) he hndq).symm
  | none =>
      symm
      rw [lastOcc_none_iff] at hp ⊢
      exact fun p hq => hp p (h.mem_iff.mpr hq)

theorem scrapeFrom_cons (now : Nat) (env : String → ProviderResp)
    (total idx : Nat) (u : String) (rest : List String) :
    scrapeFrom now env total idx (u :: rest) =
      ((match (get_profile_data now u (env u)).1 with
        | some d => d :: (scrapeFrom now env total (idx + 1) rest).1
        | none => (scrapeFrom now env total (idx + 1) rest).1),
       (FetchEv.fetch u (get_profile_data now u (env u)).1.isSome ::
          (if idx < total then [FetchEv.sleep 3] else [])) ++
         (scrapeFrom now env total (idx + 1) rest).2) := rfl

theorem scrapeFrom_eq (now : Nat) (env : String → ProviderResp)
    (total : Nat) :
    ∀ (l : List String) (idx : Nat), idx + l.length = total + 1 →
      scrapeFrom now env total idx l =
        (l.filterMap (fun u => (get_profile_data now u (env u)).1),
         List.intersperse (FetchEv.sleep 3)
           (l.map (fun u =>
             FetchEv.fetch u (get_profile_data now u (env u)).1.isSome))) := by
  intro l
  induction l with
  | nil => intro idx _; rfl
  | cons u rest ih =>
      intro idx hidx
      have hrest : idx + 1 + rest.length = total + 1 := by
        simp only [List.length_cons] at hidx
        omega
      cases rest with
      | nil =>
          have hnlt : ¬ idx < total := by
            simp only [List.length_cons, List.length_nil] at hidx
            omega
          rw [scrapeFrom_cons]
          simp only [if_neg hnlt]
          cases hdata : (get_profile_data now u (env u)).1 <;>
            simp [hdata, scrapeFrom, List.filterMap_cons,
              List.intersperse_singleton]
      | cons v rest' =>
          have hlt : idx < total := by
            simp only [List.length_cons] at hidx
            omega
          rw [scrapeFrom_cons, ih (idx + 1) hrest]
          simp only [if_pos hlt]
          cases hdata : (get_profile_data now u (env u)).1 <;>
            simp [hdata, List.filterMap_cons, List.map_cons,
              List.intersperse_cons_cons]

theorem filter_intersperse_sleep (l : List FetchEv)
    (h : ∀ e ∈ l, isSleepEv e = false) :
    (List.intersperse (FetchEv.sleep 3) l).filter isSleepEv
      = List.replicate (l.length - 1) (FetchEv.sleep 3) := by
  induction l with
  | nil => rfl
  | cons a rest ih =>
      cases rest with
      | nil =>
          simp [List.intersperse_singleton,
            List.filter_cons, h a (List.mem_cons_self a [])]
      | cons b rest' =>
          have ha := h a (List.mem_cons_self a (b :: rest'))
          have hr : ∀ e ∈ b :: rest', isSleepEv e = false :=
            fun e he => h e (List.mem_cons_of_mem a he)
          rw [List.intersperse_cons_cons]
          simp only [List.filter_cons, ha, ih hr]
          simp [isSleepEv, List.replicate_succ]

theorem lastOcc_append (u : String) (xs ys : List PDict) :
    lastOcc u (xs ++ ys) =
      match lastOcc u ys with
      | some q => some q
      | none => lastOcc u xs := by
  induction xs with
  | nil =>
      simp only [List.nil_append, lastOcc]
      cases lastOcc u ys <;> rfl
  | cons x xs' ih =>
      cases hys : lastOcc u ys with
      | some q =>
          have h2 : lastOcc u (xs' ++ ys) = some q := by rw [ih, hys]
          show (match lastOcc u (xs' ++ ys) with
                | some w => some w
                | none => if x.username = u then some x else none) = some q
          rw [h2]
      | none =>
          have h2 : lastOcc u (xs' ++ ys) = lastOcc u xs' := by rw [ih, hys]
          show (match lastOcc u (xs' ++ ys) with
                | some w => some w
                | none => if x.username = u then some x else none) =
               (match lastOcc u xs' with
                | some w => some w
                | none => if x.username = u then some x else none)
          rw [h2]

theorem stripTime_rowOf (t : Nat) (p : PDict) :
    stripTime (rowOf t p) = rowOf 0 p := rfl

theorem map_username_map_fillEngagement (ps : List PDict) :
    (ps.map fillEngagement).map PDict.username = ps.map PDict.username := by
  rw [List.map_map]
  exact List.map_congr_left (fun a _ => fillEngagement_username a)

theorem batch_store_ok (t : Nat) (ps : List PDict) (s : Store)
    (h : ∀ q ∈ ps.map fillEngagement, rowValid q)
    (hnd : (ps.map PDict.username).Nodup) :
    (upsert_profiles_batch t ps s).2.1
      = applyAll t (ps.map fillEngagement) s ∧
    (upsert_profiles_batch t ps s).2.2 = true := by
  have hndf : ((ps.map fillEngagement).map PDict.username).Nodup := by
    rw [map_username_map_fillEngagement]
    exact hnd
  have hok := execRows_ok t (ps.map fillEngagement) s hndf h
  constructor <;> simp [upsert_profiles_batch, hok]

/-! Claim theorems. -/

/-- C3 (counterexample): the claim says `fetch` returns a value from the
closed five-way set, i.e. the four failure classes are partitioned in the
returned outcome. In the code every failure branch returns the same
value `None`, so no function of the return value can map the NotFound
run to `NotFound` and the AuthRequired run to `AuthRequired`: the
returned values of the two runs are identical. -/
theorem C3_counterexample :
    ¬ ∃ cls : Option PDict → FetchOutcome,
        cls (get_profile_data 0 "a" ProviderResp.notExists).1
          = FetchOutcome.notFound ∧
        cls (get_profile_data 0 "a" ProviderResp.loginRequired).1
          = FetchOutcome.authRequired := by
  rintro ⟨cls, h1, h2⟩
  have he : (get_profile_data 0 "a" ProviderResp.notExists).1
      = (get_profile_data 0 "a" ProviderResp.loginRequired).1 := rfl
  rw [he, h2] at h1
  exact FetchOutcome.noConfusion h1

/-- C3 (amended): `get_profile_data` classifies every provider failure
into one of four distinct handler branches — the closed partition of the
spec exists at the branch level (`branchOutcome`), with any unrecognized
failure coerced to the transient class carrying the original message,
and a message is printed on every failure (never silently dropped) — but
the returned value only distinguishes Success (the snapshot dictionary)
from failure (`None` for all four classes). -/
theorem C3_branch_partition (now : Nat) (u : String) (resp : ProviderResp) :
    (∀ d : PDict, (get_profile_data now u resp).1 = some d ↔
        branchOutcome now u resp = FetchOutcome.success d) ∧
    branchOutcome now u ProviderResp.notExists = FetchOutcome.notFound ∧
    branchOutcome now u ProviderResp.privateNotFollowed
      = FetchOutcome.privateAccount ∧
    branchOutcome now u ProviderResp.loginRequired
      = FetchOutcome.authRequired ∧
    (∀ m, branchOutcome now u (ProviderResp.otherError m)
        = FetchOutcome.transientError m) ∧
    (∀ m, (get_profile_data now u (ProviderResp.otherError m)).2
        = "Error scraping @" ++ u ++ ": " ++ m) ∧
    ((get_profile_data now u resp).1 = none →
      (get_profile_data now u resp).2.length ≠ 0) := by
  refine ⟨?_, rfl, rfl, rfl, fun m => rfl, fun m => rfl, ?_⟩
  · intro d
    cases resp <;> simp [get_profile_data, branchOutcome]
  · intro hnone
    cases resp with
    | fields fo fg pc => simp [get_profile_data] at hnone
    | notExists =>
        have h1 : ("Profile @").length = 9 := rfl
        have h2 : (" does not exist").length = 15 := rfl
        simp only [get_profile_data, String.length_append]
        omega
    | privateNotFollowed =>
        have h1 : ("Profile @").length = 9 := rfl
        have h2 : (" is private").length = 11 := rfl
        simp only [get_profile_data, String.length_append]
        omega
    | loginRequired =>
        have h1 : ("Login required to access @").length = 26 := rfl
        simp only [get_profile_data, String.length_append]
        omega
    | otherError m =>
        have h1 : ("Error scraping @").length = 16 := rfl
        have h2 : (": ").length = 2 := rfl
        simp only [get_profile_data, String.length_append]
        omega

/-- C3 (witness for the amended theorem): a concrete NotFound run
returns `None` and prints a non-empty message. -/
theorem C3_branch_partition_witness :
    (get_profile_data 0 "a" ProviderResp.notExists).1 = none ∧
    (get_profile_data 0 "a" ProviderResp.notExists).2.length ≠ 0 :=
  ⟨rfl, (C3_branch_partition 0 "a" ProviderResp.notExists).2.2.2.2.2.2 rfl⟩

/-- C4: `scrape_multiple_profiles` never aborts on a failed fetch: it
returns exactly the successful snapshots in input order (the input
list's `filterMap` through `get_profile_data`), and reports the number
of successes out of the total; in particular, for `["a", "missing",
"b"]` where `"missing"` does not exist, it returns the snapshots of
`"a"` and `"b"` in that order and reports 2 out of 3. -/
theorem C4_skip_and_continue (now : Nat) (env : String → ProviderResp)
    (usernames : List String) :
    ((scrape_multiple_profiles now env usernames).1
       = usernames.filterMap (fun u => (get_profile_data now u (env u)).1)) ∧
    ((scrape_multiple_profiles now env usernames).2.2.1
       = (scrape_multiple_profiles now env usernames).1.length) ∧
    ((scrape_multiple_profiles now env usernames).2.2.2
       = usernames.length) ∧
    ((scrape_multiple_profiles 0
        (fun u => if u = "missing" then ProviderResp.notExists
                  else ProviderResp.fields 5 6 7)
        ["a", "missing", "b"]).1
       = [{ username := "a", followers := 5, following := 6,
            posts_count := 7, scraped_at := some 0 },
          { username := "b", followers := 5, following := 6,
            posts_count := 7, scraped_at := some 0 }]) ∧
    ((scrape_multiple_profiles 0
        (fun u => if u = "missing" then ProviderResp.notExists
                  else ProviderResp.fields 5 6 7)
        ["a", "missing", "b"]).2.2.1 = 2) ∧
    ((scrape_multiple_profiles 0
        (fun u => if u = "missing" then ProviderResp.notExists
                  else ProviderResp.fields 5 6 7)
        ["a", "missing", "b"]).2.2.2 = 3) := by
  have h := scrapeFrom_eq now env usernames.length usernames 1 (by omega)
  refine ⟨?_, rfl, rfl, by decide, by decide, by decide⟩
  show (scrapeFrom now env usernames.length 1 usernames).1 = _
  rw [h]

/-- C8: the fetch-loop trace is the fetch events of the usernames, in
input order, with a fixed `sleep 3` inserted after every fetch except
the last regardless of the fetch's outcome; consequently the sleeps are
exactly `usernames.length - 1` copies of `sleep 3`, so three usernames
are separated by two delay gaps. -/
theorem C8_rate_limit_spacing (now : Nat) (env : String → ProviderResp)
    (usernames : List String) :
    ((scrape_multiple_profiles now env usernames).2.1
       = List.intersperse (FetchEv.sleep 3)
           (usernames.map (fun u =>
             FetchEv.fetch u (get_profile_data now u (env u)).1.isSome))) ∧
    ((scrape_multiple_profiles now env usernames).2.1.filter isSleepEv
       = List.replicate (usernames.length - 1) (FetchEv.sleep 3)) := by
  have h := scrapeFrom_eq now env usernames.length usernames 1 (by omega)
  have htr : (scrape_multiple_profiles now env usernames).2.1
      = List.intersperse (FetchEv.sleep 3)
          (usernames.map (fun u =>
            FetchEv.fetch u (get_profile_data now u (env u)).1.isSome)) := by
    show (scrapeFrom now env usernames.length 1 usernames).2 = _
    rw [h]
  refine ⟨htr, ?_⟩
  rw [htr, filter_intersperse_sleep]
  · simp
  · intro e he
    obtain ⟨u, _, rfl⟩ := List.mem_map.mp he
    rfl

/-- C2: the batch upsert is one transaction: when every (normalized)
row satisfies the store constraints and no username occurs twice in the
statement, the whole batch commits and the table is the application of
all rows; when any part of the operation fails — a row violating a
constraint, or the statement's cardinality violation on a duplicate
username — the rollback leaves the table exactly as it was before the
call, no row of the batch is visible, and the failure comes back to the
caller as the return value `False`, not a crash. -/
theorem C2_batch_atomicity (t : Nat) (ps : List PDict) (s : Store) :
    ((∀ p ∈ ps.map fillEngagement, rowValid p) →
     (ps.map PDict.username).Nodup →
       (upsert_profiles_batch t ps s).2.2 = true ∧
       (upsert_profiles_batch t ps s).2.1
         = applyAll t (ps.map fillEngagement) s) ∧
    (((∃ p ∈ ps.map fillEngagement, ¬ rowValid p) ∨
        ¬ (ps.map PDict.username).Nodup) →
       (upsert_profiles_batch t ps s).2.2 = false ∧
       (upsert_profiles_batch t ps s).2.1 = s) := by
  constructor
  · intro h hnd
    obtain ⟨hstore, hflag⟩ := batch_store_ok t ps s h hnd
    exact ⟨hflag, hstore⟩
  · intro h
    have h' : (∃ p ∈ ps.map fillEngagement, ¬ rowValid p) ∨
        ¬ ((ps.map fillEngagement).map PDict.username).Nodup := by
      rcases h with h | h
      · exact Or.inl h
      · refine Or.inr ?_
        rw [map_username_map_fillEngagement]
        exact h
    obtain ⟨e, herr⟩ := execRows_error t (ps.map fillEngagement) s h'
    constructor <;> simp [upsert_profiles_batch, herr]

/-- C2 (witness): a concrete two-row batch whose second row violates the
non-negativity constraint returns `False` and leaves the empty table
unchanged — the valid first row is not persisted either — while a clean
one-row batch commits. -/
theorem C2_batch_atomicity_witness :
    ((upsert_profiles_batch 5 [sampleA, sampleBad] []).2.2 = false ∧
     (upsert_profiles_batch 5 [sampleA, sampleBad] []).2.1 = []) ∧
    ((upsert_profiles_batch 5 [sampleA] []).2.2 = true ∧
     (upsert_profiles_batch 5 [sampleA] []).2.1
       = applyAll 5 ([sampleA].map fillEngagement) []) :=
  ⟨(C2_batch_atomicity 5 [sampleA, sampleBad] []).2 (Or.inl (by decide)),
   (C2_batch_atomicity 5 [sampleA] []).1 (by decide) (by decide)⟩

/-- C5 (code bug, evaluation at the failing input): the spec's
last-write-within-batch-wins is the evident intent, but the program
sends the whole batch as one `INSERT ... ON CONFLICT DO UPDATE`
statement, and PostgreSQL refuses a command that would affect the same
row twice — so a batch carrying the same username twice (here two rows
for `"x"`, both satisfying every store constraint) does not succeed
with the last occurrence stored: the statement errors, the transaction
is rolled back, the call returns `False` and nothing at all is stored
for `"x"`. -/
theorem C5_duplicate_batch_fails :
    (∀ q ∈ [sampleX1, sampleX2], rowValid (fillEngagement q)) ∧
    (upsert_profiles_batch 7 [sampleX1, sampleX2] []).2.2 = false ∧
    (upsert_profiles_batch 7 [sampleX1, sampleX2] []).2.1 = [] ∧
    lookup "x" (upsert_profiles_batch 7 [sampleX1, sampleX2] []).2.1
      = none := by decide

/-- C6 (counterexample): the claim quantifies over every batch, but a
batch with the same username twice (both rows valid for the store's
constraints) is rejected by PostgreSQL's cardinality rule on both
applications: nothing is ever stored for `"x"`, so `last_updated` does
not advance to the second call's timestamp — the "except `last_updated`
advances" part of the claim is false of the program on this input. -/
theorem C6_counterexample :
    (∀ q ∈ [sampleX1, sampleX2], rowValid (fillEngagement q)) ∧
    (upsert_profiles_batch 1 [sampleX1, sampleX2] []).2.2 = false ∧
    ¬ ((lookup "x" (upsert_profiles_batch 2 [sampleX1, sampleX2]
          (upsert_profiles_batch 1 [sampleX1, sampleX2] []).2.1).2.1).map
            Row.last_updated = some 2) ∧
    (upsert_profiles_batch 2 [sampleX1, sampleX2]
        (upsert_profiles_batch 1 [sampleX1, sampleX2] []).2.1).2.1
      = [] := by decide

/-- C6 (amended): applying `upsert_profile` twice with the identical
input (times `t1` then `t2`), or `upsert_profiles_batch` twice with an
identical batch that the store accepts (every row valid and no username
occurring twice in the statement), yields a table that agrees with the
once-applied table on every username once `last_updated` is erased; the
only difference is that the touched usernames' `last_updated` is the
second call's timestamp instead of the first's. A rejected batch leaves
the table unchanged by both calls, and no timestamp advances. -/
theorem C6_idempotence (t1 t2 : Nat) (p : PDict) (ps : List PDict)
    (s : Store)
    (hp : rowValid (fillEngagement p))
    (hb : ∀ q ∈ ps.map fillEngagement, rowValid q)
    (hnd : (ps.map PDict.username).Nodup) :
    (∀ u, (lookup u
            (upsert_profile t2 p (upsert_profile t1 p s).2.1).2.1).map
              stripTime
        = (lookup u (upsert_profile t1 p s).2.1).map stripTime) ∧
    ((lookup p.username
        (upsert_profile t2 p (upsert_profile t1 p s).2.1).2.1).map
          Row.last_updated = some t2) ∧
    ((lookup p.username (upsert_profile t1 p s).2.1).map
        Row.last_updated = some t1) ∧
    (∀ u, (lookup u
            (upsert_profiles_batch t2 ps
              (upsert_profiles_batch t1 ps s).2.1).2.1).map stripTime
        = (lookup u (upsert_profiles_batch t1 ps s).2.1).map stripTime) ∧
    (∀ q ∈ ps, (lookup q.username
        (upsert_profiles_batch t2 ps
          (upsert_profiles_batch t1 ps s).2.1).2.1).map
            Row.last_updated = some t2) := by
  have hs1 : (upsert_profile t1 p s).2.1
      = sqlUpsert t1 (fillEngagement p) s := by
    simp [upsert_profile, hp]
  have hs2 : (upsert_profile t2 p (upsert_profile t1 p s).2.1).2.1
      = sqlUpsert t2 (fillEngagement p) (upsert_profile t1 p s).2.1 := by
    simp [upsert_profile, hp]
  obtain ⟨hb1, _⟩ := batch_store_ok t1 ps s hb hnd
  obtain ⟨hb2, _⟩ :=
    batch_store_ok t2 ps (upsert_profiles_batch t1 ps s).2.1 hb hnd
  refine ⟨?_, ?_, ?_, ?_, ?_⟩
  · intro u
    rw [hs2, hs1, lookup_sqlUpsert, lookup_sqlUpsert]
    by_cases hu : (fillEngagement p).username = u <;>
      simp [hu, stripTime_rowOf]
  · rw [hs2, lookup_sqlUpsert, if_pos (fillEngagement_username p)]
    rfl
  · rw [hs1, lookup_sqlUpsert, if_pos (fillEngagement_username p)]
    rfl
  · intro u
    rw [hb2, hb1, lookup_applyAll, lookup_applyAll]
    cases hlo : lastOcc u (ps.map fillEngagement) with
    | some q => simp [stripTime_rowOf]
    | none => rfl
  · intro q hq
    cases hlo : lastOcc q.username (ps.map fillEngagement) with
    | none =>
        exfalso
        have := lastOcc_none_of q.username (ps.map fillEngagement) hlo
          (fillEngagement q) (List.mem_map_of_mem fillEngagement hq)
        exact this (fillEngagement_username q)
    | some v =>
        rw [hb2, lookup_applyAll, hlo]
        rfl

/-- C6 (witness for the amended theorem): upserting the same concrete
record at times 1 then 2 leaves the same values as one upsert with
`last_updated` moved from 1 to 2, and a duplicate-free one-row batch
applied twice carries timestamp 2 for its username. -/
theorem C6_idempotence_witness :
    ((lookup "a"
        (upsert_profile 2 sampleA (upsert_profile 1 sampleA []).2.1).2.1).map
          stripTime
      = (lookup "a" (upsert_profile 1 sampleA []).2.1).map stripTime) ∧
    ((lookup "a"
        (upsert_profile 2 sampleA (upsert_profile 1 sampleA []).2.1).2.1).map
          Row.last_updated = some 2) ∧
    ((lookup "a" (upsert_profile 1 sampleA []).2.1).map
        Row.last_updated = some 1) ∧
    ((lookup sampleNoEng.username
        (upsert_profiles_batch 2 [sampleNoEng]
          (upsert_profiles_batch 1 [sampleNoEng] []).2.1).2.1).map
            Row.last_updated = some 2) :=
  ⟨(C6_idempotence 1 2 sampleA [sampleNoEng] [] (by decide) (by decide)
      (by decide)).1 "a",
   (C6_idempotence 1 2 sampleA [sampleNoEng] [] (by decide) (by decide)
      (by decide)).2.1,
   (C6_idempotence 1 2 sampleA [sampleNoEng] [] (by decide) (by decide)
      (by decide)).2.2.1,
   (C6_idempotence 1 2 sampleA [sampleNoEng] [] (by decide) (by decide)
      (by decide)).2.2.2.2 sampleNoEng (List.mem_cons_self _ _)⟩

/-- C10: both upsert operations normalize a record lacking the
`engagement` key by writing `engagement = 0` into the caller-owned
record itself (db_handler.py mutates `profile_data` before executing the
statement): after the call the caller's record is exactly the original
with `engagement = 0` filled in and every other field unchanged, and
the batch call does this to every record of the caller's list. -/
theorem C10_in_place_normalization (t : Nat) (p : PDict)
    (ps : List PDict) (s : Store) (hp : p.engagement = none) :
    (upsert_profile t p s).1 = { p with engagement := some 0 } ∧
    (upsert_profiles_batch t ps s).1 = ps.map fillEngagement ∧
    (∀ q ∈ ps, q.engagement = none →
        fillEngagement q = { q with engagement := some 0 }) := by
  refine ⟨?_, ?_, ?_⟩
  · have h1 : (upsert_profile t p s).1 = fillEngagement p := by
      by_cases h : rowValid (fillEngagement p) <;> simp [upsert_profile, h]
    rw [h1]
    unfold fillEngagement
    rw [hp]
  · cases h : execRows t (ps.map fillEngagement) s <;>
      simp [upsert_profiles_batch, h]
  · intro q _ hqe
    unfold fillEngagement
    rw [hqe]

/-- C10 (witness): a concrete record without the `engagement` key comes
back from `upsert_profile` with `engagement = 0` and all other fields
intact. -/
theorem C10_in_place_normalization_witness :
    (upsert_profile 4 sampleNoEng []).1
      = { sampleNoEng with engagement := some 0 } :=
  (C10_in_place_normalization 4 sampleNoEng [] [] rfl).1

/-- C9 (counterexample): the claim says absence is distinguishable from
an error. In the code a failed query and a missing username both come
back as `None` with the table untouched: the full observable result of
an erroring `get` on a table that does contain the looked-up username is
identical to the result of an error-free `get` for an absent username,
so no function of the result can tell the error apart from absence. -/
theorem C9_counterexample :
    ¬ ∃ isError : Option Row × Store → Bool,
        isError
          (get_profile_by_username true [("a", rowOf 1 sampleA)] "a")
          = true ∧
        isError
          (get_profile_by_username false [("a", rowOf 1 sampleA)] "b")
          = false := by
  rintro ⟨f, h1, h2⟩
  have he : get_profile_by_username true [("a", rowOf 1 sampleA)] "a"
      = get_profile_by_username false [("a", rowOf 1 sampleA)] "b" := by
    decide
  rw [he, h2] at h1
  exact Bool.noConfusion h1

/-- C9 (amended): both readers are pure reads — the table is unchanged
by every call — they never raise (`get` returns the exact-match lookup
or `None`, `list_all` the sorted rows), and absence is a valid non-error
result; but a query error is coerced to the very same `None` / empty
list, so an error is not distinguishable from absence in the result. -/
theorem C9_pure_reads (err : Bool) (s : Store) (u : String) :
    (get_profile_by_username err s u).2 = s ∧
    (get_all_profiles err s).2 = s ∧
    (err = false → (get_profile_by_username err s u).1 = lookup u s) ∧
    (err = false → (get_all_profiles err s).1 = sortByFollowersDesc s) ∧
    (lookup u s = none → (get_profile_by_username false s u).1 = none) ∧
    (err = true → (get_profile_by_username err s u).1 = none ∧
        (get_all_profiles err s).1 = []) := by
  cases err <;> simp [get_profile_by_username, get_all_profiles]

/-- C9 (witness for the amended theorem): on a concrete one-row table,
an error-free lookup of an absent username gives `None`, and an erroring
lookup of a present username also gives `None`. -/
theorem C9_pure_reads_witness :
    (get_profile_by_username false [("a", rowOf 1 sampleA)] "b").1
      = none ∧
    (get_profile_by_username true [("a", rowOf 1 sampleA)] "a").1
      = none :=
  ⟨(C9_pure_reads false [("a", rowOf 1 sampleA)] "b").2.2.2.2.1
      (by decide),
   ((C9_pure_reads true [("a", rowOf 1 sampleA)] "a").2.2.2.2.2 rfl).1⟩

/-- C7 (counterexample): the claim says the connection is released on
every exit path including a user interrupt. In a run whose fetches
succeeded and whose `connect()` succeeded, a `KeyboardInterrupt`
arriving after the batch upsert jumps straight to the interrupt handler
(`KeyboardInterrupt` is not caught by any `except Exception`), and the
process exits with code 1 without `disconnect()` ever running. -/
theorem C7_counterexample :
    MainEv.connectOk ∈ (mainGuard 3 [sampleA] true [] (some 2)).1 ∧
    MainEv.disconnected ∉ (mainGuard 3 [sampleA] true [] (some 2)).1 ∧
    (mainGuard 3 [sampleA] true [] (some 2)).2.2 = 1 := by decide

/-- C7 (amended): the connection is acquired once per run, and on the
interrupt-free paths it is released exactly once as the last database
action — both when the batch commits and when the batch fails (the
theorem holds for every table, hence for every batch outcome); when
`connect()` fails nothing is acquired; but a `KeyboardInterrupt`
arriving after a successful connect ends the process without
`disconnect()`. -/
theorem C7_connection_lifecycle (t : Nat) (results : List PDict)
    (s : Store) (hres : results ≠ []) :
    ((mainGuard t results true s none).1.count MainEv.connectOk = 1 ∧
     (mainGuard t results true s none).1.count MainEv.disconnected = 1 ∧
     (mainGuard t results true s none).1.getLast?
       = some MainEv.disconnected) ∧
    ((mainGuard t results false s none).1 = [MainEv.connectFail]) ∧
    (MainEv.disconnected ∉ (mainGuard t results true s (some 1)).1 ∧
     MainEv.disconnected ∉ (mainGuard t results true s (some 2)).1) := by
  obtain ⟨a, l, rfl⟩ : ∃ a l, results = a :: l := by
    cases results with
    | nil => exact absurd rfl hres
    | cons a l => exact ⟨a, l, rfl⟩
  have h1 : (mainGuard t (a :: l) true s none).1
      = [MainEv.connectOk,
         (if (upsert_profiles_batch t
               ((a :: l).map setEngagementZero) s).2.2
          then MainEv.batchSaved else MainEv.batchFailed),
         MainEv.disconnected] := by
    simp [mainGuard]
  refine ⟨⟨?_, ?_, ?_⟩, ?_, ?_, ?_⟩
  · rw [h1]
    cases (upsert_profiles_batch t ((a :: l).map setEngagementZero) s).2.2
      <;> simp [List.count_cons]
  · rw [h1]
    cases (upsert_profiles_batch t ((a :: l).map setEngagementZero) s).2.2
      <;> simp [List.count_cons]
  · rw [h1]
    rfl
  · simp [mainGuard]
  · have h2 : (mainGuard t (a :: l) true s (some 1)).1
        = [MainEv.connectOk] := by simp [mainGuard]
    rw [h2]
    simp
  · have h3 : (mainGuard t (a :: l) true s (some 2)).1
        = [MainEv.connectOk,
           (if (upsert_profiles_batch t
                 ((a :: l).map setEngagementZero) s).2.2
            then MainEv.batchSaved else MainEv.batchFailed)] := by
      simp [mainGuard]
    rw [h3]
    cases (upsert_profiles_batch t ((a :: l).map setEngagementZero) s).2.2
      <;> simp

/-- C7 (witness for the amended theorem): in a concrete interrupt-free
run the trace releases the connection exactly once, and in the same run
interrupted after connect it never does. -/
theorem C7_connection_lifecycle_witness :
    (mainGuard 3 [sampleA] true [] none).1.count MainEv.disconnected
      = 1 ∧
    MainEv.disconnected ∉ (mainGuard 3 [sampleA] true [] (some 1)).1 :=
  ⟨(C7_connection_lifecycle 3 [sampleA] []
      (List.cons_ne_nil _ _)).1.2.1,
   (C7_connection_lifecycle 3 [sampleA] []
      (List.cons_ne_nil _ _)).2.2.1⟩

/-- C1 (counterexample): the claim says a run whose fetches succeed but
whose database connect or batch upsert fails must exit 1. In the code
the exit code is `sys.exit(0 if results else 1)`, decided only by
whether any data was fetched: with one fetched profile and a failed
`connect()` the process exits 0, and with a successful connect but a
failed batch upsert it also exits 0. -/
theorem C1_counterexample :
    (mainGuard 0 [sampleA] false [] none).2.2 = 0 ∧
    ¬ (mainGuard 0 [sampleA] false [] none).2.2 = 1 ∧
    (mainGuard 0 [sampleBad] true [] none).2.2 = 0 ∧
    (mainGuard 0 [sampleBad] true [] none).1
      = [MainEv.connectOk, MainEv.batchFailed, MainEv.disconnected] := by
  decide

/-- C1 (amended): the exit code is 0 exactly when at least one profile
was fetched and no interrupt fired — persistence failures (connect or
batch upsert) do not change it; a run with no collected data exits 1,
and an interrupt reaching any point of the post-main block exits 1. -/
theorem C1_exit_code (t : Nat) (results : List PDict) (c : Bool)
    (s : Store) :
    ((mainGuard t results c s none).2.2
       = if results.isEmpty then 1 else 0) ∧
    ((mainGuard t results c s (some 0)).2.2 = 1) ∧
    (results ≠ [] → c = true →
       (mainGuard t results c s (some 1)).2.2 = 1 ∧
       (mainGuard t results c s (some 2)).2.2 = 1) := by
  refine ⟨?_, by simp [mainGuard], ?_⟩
  · cases results with
    | nil => simp [mainGuard]
    | cons a l => cases c <;> simp [mainGuard]
  · intro hres hc
    subst hc
    obtain ⟨a, l, rfl⟩ : ∃ a l, results = a :: l := by
      cases results with
      | nil => exact absurd rfl hres
      | cons a l => exact ⟨a, l, rfl⟩
    constructor <;> simp [mainGuard]

/-- C1 (witness for the amended theorem): a concrete successful-fetch
run interrupted after connect exits 1. -/
theorem C1_exit_code_witness :
    (mainGuard 0 [sampleA] true [] (some 1)).2.2 = 1 :=
  ((C1_exit_code 0 [sampleA] true []).2.2
    (List.cons_ne_nil _ _) rfl).1

end IGScraper
